import Mathlib

/-!
Verification of the forensic copy tool (`ntfs_ext4.py`) against its
natural-language specification.

The development shallowly embeds the parts of the program the claims are
about:

* the exclusion policy (`NTFS_EXCLUSIONS` / `EXCLUSION_SET`, source lines
  46-51);
* the source-tree scan `ForensicCopyGUI._scan_source` (lines 310-356),
  modelled as a fold of the per-entry statement block over the event stream
  produced by `os.walk(src, topdown=True)` with in-place pruning of excluded
  directory names;
* the confirmation gate `ForensicCopyGUI._confirm_copy` (lines 358-380);
* the retry loop `ForensicCopyGUI._run_copy` (lines 436-520);
* `ThreadSafeState.__init__` / `ThreadSafeState.reset` (lines 84-103).

Filesystem trees are finite inductive values; a file records the result of
`os.path.getsize` as `Option Nat` (`none` models the stat call raising).
Relative paths are component lists, mirroring `os.path.relpath`.
-/

mutual
/-- A directory entry of the source tree.  `file name sz` carries the result
of `os.path.getsize`: `some sz` when the stat succeeds, `none` when it
raises.  `dir name children` is a subdirectory with its listing in the order
`os.walk` enumerates it.  Listings are the hand-rolled `EntryList` (rather
than `List Entry`) so that the walk can be defined by mutual structural
recursion, which the kernel can evaluate on concrete trees. -/
inductive Entry where
  | file (name : String) (sz : Option Nat)
  | dir (name : String) (children : EntryList)
/-- A directory listing, in enumeration order. -/
inductive EntryList where
  | nil
  | cons (e : Entry) (rest : EntryList)
end

/-- Build an `EntryList` from a `List Entry` literal. -/
def entries : List Entry → EntryList
  | [] => .nil
  | e :: rest => .cons e (entries rest)

/-- Source lines 46-50: the literal pattern list `NTFS_EXCLUSIONS`. -/
def NTFS_EXCLUSIONS : List String :=
  [".Trashes", "$RECYCLE.BIN", "System Volume Information", "desktop.ini",
   "Thumbs.db", "Thumbs.db:encryptable", "ehthumbs.db", "ehthumbs_vista.db",
   "@eaDir", ".Spotlight-V100", ".DS_Store", "fuse_hidden*", ".nfs*"]

/-- Source line 51: `EXCLUSION_SET = set(NTFS_EXCLUSIONS)`.  A Python set of
strings; membership is exact string equality, so we keep the list and test
membership with `contains`. -/
def EXCLUSION_SET : List String := NTFS_EXCLUSIONS

/-- The membership test `name in EXCLUSION_SET` used at source lines 318,
321, 324, 327 (and 488, 490): exact string equality against the pattern
list, no glob interpretation. -/
def inExclusionSet (name : String) : Bool := EXCLUSION_SET.contains name

/-- Python `str.startswith(p)`: `p.data` is a prefix of `s.data`.  (Core's
`String.startsWith` is byte-position based and does not reduce inside the
kernel, so the scan model uses this character-list form.) -/
def pyStartsWith (s p : String) : Bool := p.data.isPrefixOf s.data

/-- Python `str.lower()` on the ASCII names the program handles: lowercase
every character.  (Core's `String.toLower` is defined through `String.map`,
which does not reduce inside the kernel; this character-list form agrees
with it on ASCII strings.) -/
def pyLower (s : String) : String := String.mk (s.data.map Char.toLower)

/-- One step of the `os.walk` event stream consumed by `_scan_source`:
`dirEvent pre name` is one iteration of the `for d in dirs` loop (after the
in-place pruning of line 318) for a directory at relative location `pre`;
`fileEvent pre name sz` is one iteration of the `for f in files` loop.
`pre` is the relative path of the containing directory as a component
list. -/
inductive Event where
  | dirEvent (pre : List String) (name : String)
  | fileEvent (pre : List String) (name : String) (sz : Option Nat)
deriving DecidableEq, Repr

/-- The `data` dictionary initialised at source lines 313-314.  `conflicts`
is the insertion-ordered Python dict keyed by `f.lower()`; paths are
component lists. -/
structure ScanData where
  files : Nat
  dirs : Nat
  size : Nat
  hidden_files : List (List String)
  hidden_dirs : List (List String)
  conflicts : List (String × List String)
  samples : List (List String × Nat)
  errors : List (List String)
deriving DecidableEq, Repr

/-- Line 313-314: the initial `data` dictionary (`errors` entries are
modelled by the relative path the message mentions). -/
def initScanData : ScanData :=
  { files := 0, dirs := 0, size := 0, hidden_files := [], hidden_dirs := [],
    conflicts := [], samples := [], errors := [] }

/-- Lines 336-338: `key = f.lower(); if key not in conflicts: ...;
conflicts[key].append(f)` — insertion-ordered dict update. -/
def conflictAdd : List (String × List String) → String → List (String × List String)
  | [], name => [(pyLower name, [name])]
  | kv :: rest, name =>
      if kv.1 = pyLower name then (kv.1, kv.2 ++ [name]) :: rest
      else kv :: conflictAdd rest name

/-- Line 325: `data['files'] += 1`. -/
def fileCountUpd (d : ScanData) : ScanData := { d with files := d.files + 1 }

/-- Lines 327-328: hidden-file classification
`if f.startswith('.') and f not in EXCLUSION_SET`. -/
def hiddenFileUpd (rel : List String) (name : String) (d : ScanData) : ScanData :=
  if pyStartsWith name "." && !inExclusionSet name then
    { d with hidden_files := d.hidden_files ++ [rel] }
  else d

/-- Lines 329-335: the `try` block around `os.path.getsize`.  On success the
size is accumulated and the file is opportunistically sampled (cap 10,
size strictly above 1024); on a stat failure an error entry is recorded
instead. -/
def sizeSampleUpd (rel : List String) (sz : Option Nat) (d : ScanData) : ScanData :=
  match sz with
  | some s =>
      if d.samples.length < 10 ∧ 1024 < s then
        { d with size := d.size + s, samples := d.samples ++ [(rel, s)] }
      else { d with size := d.size + s }
  | none => { d with errors := d.errors ++ [rel] }

/-- Lines 336-338: conflict-map update. -/
def conflictUpd (name : String) (d : ScanData) : ScanData :=
  { d with conflicts := conflictAdd d.conflicts name }

/-- The body of the `for f in files` loop, lines 323-338.  The leading
`if f in EXCLUSION_SET: continue` (line 324) skips everything. -/
def stepFile (pre : List String) (name : String) (sz : Option Nat) (d : ScanData) : ScanData :=
  if inExclusionSet name then d
  else conflictUpd name (sizeSampleUpd (pre ++ [name]) sz (hiddenFileUpd (pre ++ [name]) name (fileCountUpd d)))

/-- The body of the `for d in dirs` loop, lines 319-322 (the list `dirs` has
already been pruned of excluded names at line 318, so only kept directories
reach this step). -/
def stepDir (pre : List String) (name : String) (d : ScanData) : ScanData :=
  if pyStartsWith name "." && !inExclusionSet name then
    { d with dirs := d.dirs + 1, hidden_dirs := d.hidden_dirs ++ [pre ++ [name]] }
  else { d with dirs := d.dirs + 1 }

/-- One statement block of the scan loop applied to one walk event. -/
def scanStep (d : ScanData) (e : Event) : ScanData :=
  match e with
  | .dirEvent pre name => stepDir pre name d
  | .fileEvent pre name sz => stepFile pre name sz d

/-- The pruned `for d in dirs` loop of a single `os.walk` yield (line 318
prunes in place, lines 319-322 iterate): one `dirEvent` per non-excluded
subdirectory of the listing, in listing order. -/
def dirEventsOf (pre : List String) : EntryList → List Event
  | .nil => []
  | .cons (.file _ _) rest => dirEventsOf pre rest
  | .cons (.dir n _) rest =>
      (if inExclusionSet n then [] else [Event.dirEvent pre n]) ++ dirEventsOf pre rest

/-- The `for f in files` loop of a single `os.walk` yield (lines 323-338):
one `fileEvent` per file in the listing — exclusion of files happens inside
the loop body (line 324), not here. -/
def fileEventsOf (pre : List String) : EntryList → List Event
  | .nil => []
  | .cons (.file n sz) rest => Event.fileEvent pre n sz :: fileEventsOf pre rest
  | .cons (.dir _ _) rest => fileEventsOf pre rest

/-- The events contributed by a single `os.walk` yield for the directory at
relative location `pre` whose listing is `es`: first the pruned `dirs` loop,
then the `files` loop.  Not recursive; descent is `walkList`. -/
def nodeEvents (pre : List String) (es : EntryList) : List Event :=
  dirEventsOf pre es ++ fileEventsOf pre es

mutual
/-- Descent contribution of one directory entry: `os.walk(topdown=True)`
never descends into excluded directories (they are pruned from `dirs` at
line 318 before recursion), and files contribute nothing to the descent.
A kept subdirectory is yielded (its `nodeEvents`) and then recursively
descended into. -/
def walkEntry : List String → Entry → List Event
  | _, .file _ _ => []
  | pre, .dir n sub =>
      if inExclusionSet n then []
      else nodeEvents (pre ++ [n]) sub ++ walkList (pre ++ [n]) sub

/-- Descent over a listing, in listing order. -/
def walkList : List String → EntryList → List Event
  | _, .nil => []
  | pre, .cons e rest => walkEntry pre e ++ walkList pre rest
end

/-- Full event stream of `os.walk(src, topdown=True)` as consumed by the
scan loop: the root directory's own yield, then the recursive descent. -/
def walkEvents (pre : List String) (es : EntryList) : List Event :=
  nodeEvents pre es ++ walkList pre es

/-- Lines 316-344 of `_scan_source`: the whole walk loop, as a fold of the
per-event statement block over the event stream.  (The memory check at
lines 340-344 only emits a log warning and touches no scan data; the
`except` at line 345 can only fire for walk-level failures, which the pure
tree model does not produce.) -/
def scanData (tree : EntryList) : ScanData :=
  (walkEvents [] tree).foldl scanStep initScanData

/-- Line 348: `data['conflicts'] = {k: v for k, v in ... if len(set(v)) > 1}`
— retain only the groups with at least two distinct literal names.  This is
the value `_scan_source` returns (wall-clock `duration`, line 349, is not
modelled). -/
def scan (tree : EntryList) : ScanData :=
  let d := scanData tree
  { d with conflicts := d.conflicts.filter fun kv => 1 < kv.2.dedup.length }

/-- The (containing directory, name, stat result) triples of the file
events in an event list, in order. -/
def fileTriples (evs : List Event) : List (List String × String × Option Nat) :=
  evs.filterMap fun e =>
    match e with
    | .fileEvent pre n s => some (pre, n, s)
    | .dirEvent _ _ => none

/-- The (containing directory, name) pairs of the directory events in an
event list, in order. -/
def dirPairs (evs : List Event) : List (List String × String) :=
  evs.filterMap fun e =>
    match e with
    | .dirEvent pre n => some (pre, n)
    | .fileEvent _ _ _ => none

/-- All files of the walk, as (containing directory, name, stat result)
triples in walk order — the files `_scan_source` iterates over. -/
def filesList (tree : EntryList) : List (List String × String × Option Nat) :=
  fileTriples (walkEvents [] tree)

/-- All directory events of the walk (already pruned of excluded names), as
(containing directory, name) pairs in walk order. -/
def dirsList (tree : EntryList) : List (List String × String) :=
  dirPairs (walkEvents [] tree)

/-- The non-excluded files of the walk: those that survive the
`if f in EXCLUSION_SET: continue` test at line 324. -/
def keptFiles (tree : EntryList) : List (List String × String × Option Nat) :=
  (filesList tree).filter fun x => !inExclusionSet x.2.1

/-- Whether a walked file qualifies for the verification sample list: not
excluded, stat succeeded, and size strictly above 1024 bytes (line 332). -/
def isQualFile : List String × String × Option Nat → Bool
  | (_, n, some sz) => !inExclusionSet n && decide (1024 < sz)
  | (_, _, none) => false

/-- Dictionary lookup in the insertion-ordered conflicts map. -/
def lookupKey : List (String × List String) → String → Option (List String)
  | [], _ => none
  | kv :: rest, k => if kv.1 = k then some kv.2 else lookupKey rest k

/-- Configuration constant, source line 43: `RETRY_ATTEMPTS = 3`. -/
def RETRY_ATTEMPTS : Nat := 3

/-- Configuration constant, source line 44: `RETRY_DELAY_SECONDS = 2`. -/
def RETRY_DELAY_SECONDS : Nat := 2

/-- Result of `ForensicCopyGUI._confirm_copy` (lines 358-380): whether the
session proceeds, whether the confirmation dialog was actually shown, and
how many countdown seconds were logged on the dialog-failure path. -/
structure ConfirmResult where
  proceed : Bool
  prompted : Bool
  countdown : Nat
deriving DecidableEq, Repr

/-- Lines 358-380 of `_confirm_copy`.  `sizeBytes` is `data['size']`;
`dialog` is the outcome of `messagebox.askyesno` (`none` when the call
raises).  The guard at line 369 is `data['size']/(1024**3) > 0.1` computed
with Python float division; for every integer byte count the float
comparison agrees with the exact rational comparison
`10 * sizeBytes > 2^30` (the nearest integer ratios to the threshold differ
from it by at least `2^-30/10`, far above double rounding error), so the
guard is embedded as that integer comparison. -/
def confirmCopy (sizeBytes : Nat) (dialog : Option Bool) : ConfirmResult :=
  if 2 ^ 30 < 10 * sizeBytes then
    match dialog with
    | some b => { proceed := b, prompted := true, countdown := 0 }
    | none => { proceed := true, prompted := true, countdown := 5 }
  else { proceed := true, prompted := false, countdown := 0 }

/-- What one iteration of the retry loop in `_run_copy` (lines 446-511)
observes about the external world: whether the pre-streaming statements
(`os.makedirs`, `Popen`, stdin write, lines 448-460) raise, whether
`cancel_requested` is seen while streaming rsync output (line 464: breaks
the loop and calls `proc.terminate()`), the subprocess exit status read
after `proc.wait()` (line 474), and whether the post-rsync statements
(`chmod` at line 481 or the verification walk, lines 485-501) raise. -/
structure AttemptBehavior where
  preExn : Bool
  cancelSeen : Bool
  exitCode : Int
  postExn : Bool
deriving DecidableEq, Repr

/-- Whether the `try` block of one attempt runs to `success = True` (line
503) or raises into the `except` handler (line 505).  Observing
`cancelSeen` only breaks the streaming loop and asks the subprocess to
terminate (lines 464-467); control then falls through to `proc.wait()` and
the return-code check exactly as in the uncancelled case, so the outcome
depends only on the exit status and the later statements. -/
inductive AttemptOutcome where
  | ok
  | exn
deriving DecidableEq, Repr

/-- One iteration of the `try` block, lines 446-503. -/
def runAttempt (b : AttemptBehavior) : AttemptOutcome :=
  if b.preExn then .exn
  else if b.exitCode ≠ 0 then .exn
  else if b.postExn then .exn
  else .ok

/-- How `_run_copy` ends.  `completed n` / `failed n`: the loop exits after
`n` attempts and the finalisation at lines 513-520 sets `copy_completed` /
`copy_failed` and schedules `_finish`.  `crashed n`: attempt `n`'s `except`
handler raised, the exception escaped `_run_copy`, and the worker thread
died with no finalisation at all — neither flag is set and `_finish` never
runs. -/
inductive RunOutcome where
  | completed (attempts : Nat)
  | failed (attempts : Nat)
  | crashed (attempts : Nat)
deriving DecidableEq, Repr

/-- The retry loop of `_run_copy`, lines 437-511:
`while attempt < RETRY_ATTEMPTS and not success`.  A failing attempt enters
the `except` handler (line 505), which logs the error (line 506) and then
evaluates `traceback.format_exc()` (line 507) — but the module never
imports `traceback`, so that expression raises `NameError` inside the
handler; the `NameError` propagates out of `_run_copy` and kills the worker
thread before the retry-delay sleep (line 511) or any further attempt, and
before the finalisation block (lines 513-520).

The loop counter is carried as the pair (attempt, remaining) with
`remaining = RETRY_ATTEMPTS - attempt`, so the guard
`attempt < RETRY_ATTEMPTS and not success` becomes
`remaining > 0 and not success` and the recursion is structural. -/
def runCopyLoop (behav : Nat → AttemptBehavior) :
    Nat → Nat → Bool → RunOutcome
  | attempt, 0, success =>
      if success then .completed attempt else .failed attempt
  | attempt, remaining + 1, success =>
      if success then .completed attempt
      else
        match runAttempt (behav (attempt + 1)) with
        | .ok => runCopyLoop behav (attempt + 1) remaining true
        | .exn => .crashed (attempt + 1)

/-- `_run_copy` entry: `attempt = 0`, `success = False` (lines 437-438),
parametrised by the retry limit so both scenarios of the spec's retry-bound
property can be stated. -/
def runCopy (retryAttempts : Nat) (behav : Nat → AttemptBehavior) : RunOutcome :=
  runCopyLoop behav 0 retryAttempts false

/-- Spec-level terminal phase of a session.  `Crashed` stands for the
worker thread dying with no terminal flag set at all (the state machine of
the spec has no such state; the code produces it). -/
inductive TerminalPhase where
  | Completed
  | Failed
  | Cancelled
  | Crashed
deriving DecidableEq, Repr

/-- The terminal phase the finalisation code (lines 513-520) actually
produces for each way `_run_copy` can end.  No branch of `_run_copy` or
`_finish` produces a `Cancelled` terminal phase; the string
`'cancelled'` never enters `current_phase` anywhere in the program. -/
def terminalOf : RunOutcome → TerminalPhase
  | .completed _ => .Completed
  | .failed _ => .Failed
  | .crashed _ => .Crashed

/-- A Python value stored in `ThreadSafeState._state`. -/
inductive PyVal where
  | bool (b : Bool)
  | int (n : Int)
  | str (s : String)
  | list (l : List String)
deriving DecidableEq, Repr

/-- `ThreadSafeState.__init__` (lines 84-89): the initial `_state` dict in
insertion order. -/
def ThreadSafeState.initState : List (String × PyVal) :=
  [("copy_in_progress", .bool false), ("copy_completed", .bool false),
   ("copy_failed", .bool false), ("cancel_requested", .bool false),
   ("current_phase", .str "idle"), ("files_processed", .int 0),
   ("bytes_transferred", .int 0), ("errors", .list []),
   ("warnings", .list []), ("checkpoints", .list [])]

/-- The value rewrite of `ThreadSafeState.reset` (line 102):
`False if isinstance(v, bool) else 0 if isinstance(v, int) else []` —
strings fall through to the empty list. -/
def resetVal : PyVal → PyVal
  | .bool _ => .bool false
  | .int _ => .int 0
  | .str _ => .list []
  | .list _ => .list []

/-- `ThreadSafeState.reset` (lines 100-103): rebuild the dict over the same
keys with every value rewritten by `resetVal`. -/
def ThreadSafeState.reset (st : List (String × PyVal)) : List (String × PyVal) :=
  st.map fun kv => (kv.1, resetVal kv.2)

/-- Modelled from the spec: the `ExclusionPolicy.matches` contract of
spec section 4.1 — "Must support exact string match and simple
trailing-wildcard glob match (`prefix*`)".  This is the matcher the claims
quantify over; it is deliberately the spec's matcher, to be compared with
the exact-membership test `inExclusionSet` the scan actually uses. -/
def specGlobMatch (pat name : String) : Bool :=
  if pat.data.getLast? == some '*' then pyStartsWith name (String.mk pat.data.dropLast)
  else pat == name

/-- Modelled from the spec: a name matches the ExclusionPolicy when some
pattern of `NTFS_EXCLUSIONS` matches it exactly or as a trailing-wildcard
glob. -/
def specMatchesPolicy (name : String) : Bool :=
  NTFS_EXCLUSIONS.any fun pat => specGlobMatch pat name

/-- The names (across the whole event stream, in walk order) of the
non-excluded files whose case-folded name is `k` — the list the conflicts
dict accumulates under key `k`. -/
def foldNames (evs : List Event) (k : String) : List String :=
  (fileTriples evs).filterMap fun x =>
    if inExclusionSet x.2.1 then none
    else if pyLower x.2.1 = k then some x.2.1 else none

/-- The names the conflicts dict of `scan` accumulates under key `k` for a
whole tree. -/
def treeFoldNames (tree : EntryList) (k : String) : List String :=
  foldNames (walkEvents [] tree) k

/-- Combine an already-accumulated conflicts-dict entry with the names still
to be appended under the same key: no entry is created when nothing is
appended, otherwise the names are appended to the existing list (or start a
fresh one). -/
def combineOpt (o : Option (List String)) (l : List String) : Option (List String) :=
  match o, l with
  | some l0, l => some (l0 ++ l)
  | none, [] => none
  | none, l => some l

/-- The per-file stat-failure error entries (modelled by the relative path
the message mentions) a list of walked files produces, in order. -/
def statErrors (l : List (List String × String × Option Nat)) : List (List String) :=
  l.filterMap fun x =>
    match x.2.2 with
    | none => some (x.1 ++ [x.2.1])
    | some _ => none

/-- The successfully-read sizes of a list of walked files, in order. -/
def statSizes (l : List (List String × String × Option Nat)) : List Nat :=
  l.filterMap fun x => x.2.2

/-- Attempt behaviour: cancellation is observed during streaming and the
terminated subprocess still exits 0 (it had already finished when
`terminate()` arrived). -/
def cancelExit0 : Nat → AttemptBehavior :=
  fun _ => { preExn := false, cancelSeen := true, exitCode := 0, postExn := false }

/-- Attempt behaviour: cancellation is observed during streaming and the
terminated subprocess exits nonzero. -/
def cancelExit1 : Nat → AttemptBehavior :=
  fun _ => { preExn := false, cancelSeen := true, exitCode := 1, postExn := false }

/-- Attempt behaviour of the spec's retry-bound scenario: the copy
mechanism exits 1 on its first two invocations and 0 on the third. -/
def failTwiceThenOk : Nat → AttemptBehavior :=
  fun n =>
    if n ≤ 2 then { preExn := false, cancelSeen := false, exitCode := 1, postExn := false }
    else { preExn := false, cancelSeen := false, exitCode := 0, postExn := false }

/-- A tree whose two names match exclusion patterns only as globs: the file
`.nfs001` (pattern `.nfs*`) and the directory `.nfsdir` (pattern
`.nfs*`). -/
def treeNfs : EntryList :=
  entries [.file ".nfs001" (some 2000), .dir ".nfsdir" (entries [])]

/-- Twelve distinct files of 2000 bytes each in one directory. -/
def treeTwelve : EntryList :=
  entries ((List.range 12).map fun i => Entry.file ("f" ++ Nat.repr i) (some 2000))

/-- `Report.txt` at the root and `report.txt` inside the subdirectory
`sub` — same case-fold, different directories, hence not siblings. -/
def treeCross : EntryList :=
  entries [.file "Report.txt" (some 5), .dir "sub" (entries [.file "report.txt" (some 5)])]

/-- One file large enough to be sampled. -/
def treeSample : EntryList := entries [.file "data.bin" (some 4096)]

/-- A small tree, and the same tree with its root listing enumerated in the
opposite order. -/
def treePermA : EntryList :=
  entries [.file "b.txt" (some 1), .file "A.txt" (some 2), .dir "d" (entries [.file "x" none])]

/-- See `treePermA`. -/
def treePermB : EntryList :=
  entries [.dir "d" (entries [.file "x" none]), .file "A.txt" (some 2), .file "b.txt" (some 1)]

/-! Field-level facts about the per-statement updaters, used to push record
projections through one scan-loop step. -/

@[simp] theorem fileCountUpd_files (d : ScanData) : (fileCountUpd d).files = d.files + 1 := rfl
@[simp] theorem fileCountUpd_dirs (d : ScanData) : (fileCountUpd d).dirs = d.dirs := rfl
@[simp] theorem fileCountUpd_size (d : ScanData) : (fileCountUpd d).size = d.size := rfl
@[simp] theorem fileCountUpd_samples (d : ScanData) : (fileCountUpd d).samples = d.samples := rfl
@[simp] theorem fileCountUpd_errors (d : ScanData) : (fileCountUpd d).errors = d.errors := rfl
@[simp] theorem fileCountUpd_conflicts (d : ScanData) : (fileCountUpd d).conflicts = d.conflicts := rfl

@[simp] theorem hiddenFileUpd_files (rel : List String) (n : String) (d : ScanData) :
    (hiddenFileUpd rel n d).files = d.files := by
  simp only [hiddenFileUpd]; split <;> rfl
@[simp] theorem hiddenFileUpd_dirs (rel : List String) (n : String) (d : ScanData) :
    (hiddenFileUpd rel n d).dirs = d.dirs := by
  simp only [hiddenFileUpd]; split <;> rfl
@[simp] theorem hiddenFileUpd_size (rel : List String) (n : String) (d : ScanData) :
    (hiddenFileUpd rel n d).size = d.size := by
  simp only [hiddenFileUpd]; split <;> rfl
@[simp] theorem hiddenFileUpd_samples (rel : List String) (n : String) (d : ScanData) :
    (hiddenFileUpd rel n d).samples = d.samples := by
  simp only [hiddenFileUpd]; split <;> rfl
@[simp] theorem hiddenFileUpd_errors (rel : List String) (n : String) (d : ScanData) :
    (hiddenFileUpd rel n d).errors = d.errors := by
  simp only [hiddenFileUpd]; split <;> rfl
@[simp] theorem hiddenFileUpd_conflicts (rel : List String) (n : String) (d : ScanData) :
    (hiddenFileUpd rel n d).conflicts = d.conflicts := by
  simp only [hiddenFileUpd]; split <;> rfl

@[simp] theorem sizeSampleUpd_files (rel : List String) (sz : Option Nat) (d : ScanData) :
    (sizeSampleUpd rel sz d).files = d.files := by
  cases sz with
  | none => rfl
  | some s => simp only [sizeSampleUpd]; split <;> rfl
@[simp] theorem sizeSampleUpd_dirs (rel : List String) (sz : Option Nat) (d : ScanData) :
    (sizeSampleUpd rel sz d).dirs = d.dirs := by
  cases sz with
  | none => rfl
  | some s => simp only [sizeSampleUpd]; split <;> rfl
@[simp] theorem sizeSampleUpd_size (rel : List String) (sz : Option Nat) (d : ScanData) :
    (sizeSampleUpd rel sz d).size = d.size + sz.getD 0 := by
  cases sz with
  | none => rfl
  | some s => simp only [sizeSampleUpd]; split <;> rfl
@[simp] theorem sizeSampleUpd_conflicts (rel : List String) (sz : Option Nat) (d : ScanData) :
    (sizeSampleUpd rel sz d).conflicts = d.conflicts := by
  cases sz with
  | none => rfl
  | some s => simp only [sizeSampleUpd]; split <;> rfl
@[simp] theorem sizeSampleUpd_errors (rel : List String) (sz : Option Nat) (d : ScanData) :
    (sizeSampleUpd rel sz d).errors
      = d.errors ++ (match sz with | none => [rel] | some _ => []) := by
  cases sz with
  | none => rfl
  | some s => simp only [sizeSampleUpd]; split <;> simp

theorem sizeSampleUpd_samples_none (rel : List String) (d : ScanData) :
    (sizeSampleUpd rel none d).samples = d.samples := rfl
theorem sizeSampleUpd_samples_pos (rel : List String) (s : Nat) (d : ScanData)
    (h : d.samples.length < 10 ∧ 1024 < s) :
    (sizeSampleUpd rel (some s) d).samples = d.samples ++ [(rel, s)] := by
  simp only [sizeSampleUpd]; rw [if_pos h]
theorem sizeSampleUpd_samples_neg (rel : List String) (s : Nat) (d : ScanData)
    (h : ¬(d.samples.length < 10 ∧ 1024 < s)) :
    (sizeSampleUpd rel (some s) d).samples = d.samples := by
  simp only [sizeSampleUpd]; rw [if_neg h]

@[simp] theorem conflictUpd_files (n : String) (d : ScanData) : (conflictUpd n d).files = d.files := rfl
@[simp] theorem conflictUpd_dirs (n : String) (d : ScanData) : (conflictUpd n d).dirs = d.dirs := rfl
@[simp] theorem conflictUpd_size (n : String) (d : ScanData) : (conflictUpd n d).size = d.size := rfl
@[simp] theorem conflictUpd_samples (n : String) (d : ScanData) : (conflictUpd n d).samples = d.samples := rfl
@[simp] theorem conflictUpd_errors (n : String) (d : ScanData) : (conflictUpd n d).errors = d.errors := rfl
@[simp] theorem conflictUpd_conflicts (n : String) (d : ScanData) :
    (conflictUpd n d).conflicts = conflictAdd d.conflicts n := rfl

@[simp] theorem stepDir_files (pre : List String) (n : String) (d : ScanData) :
    (stepDir pre n d).files = d.files := by
  simp only [stepDir]; split <;> rfl
@[simp] theorem stepDir_dirs (pre : List String) (n : String) (d : ScanData) :
    (stepDir pre n d).dirs = d.dirs + 1 := by
  simp only [stepDir]; split <;> rfl
@[simp] theorem stepDir_size (pre : List String) (n : String) (d : ScanData) :
    (stepDir pre n d).size = d.size := by
  simp only [stepDir]; split <;> rfl
@[simp] theorem stepDir_samples (pre : List String) (n : String) (d : ScanData) :
    (stepDir pre n d).samples = d.samples := by
  simp only [stepDir]; split <;> rfl
@[simp] theorem stepDir_errors (pre : List String) (n : String) (d : ScanData) :
    (stepDir pre n d).errors = d.errors := by
  simp only [stepDir]; split <;> rfl
@[simp] theorem stepDir_conflicts (pre : List String) (n : String) (d : ScanData) :
    (stepDir pre n d).conflicts = d.conflicts := by
  simp only [stepDir]; split <;> rfl

theorem stepFile_excluded (pre : List String) (n : String) (sz : Option Nat) (d : ScanData)
    (h : inExclusionSet n = true) : stepFile pre n sz d = d := by
  simp only [stepFile]; rw [if_pos h]

theorem stepFile_kept (pre : List String) (n : String) (sz : Option Nat) (d : ScanData)
    (h : inExclusionSet n = false) :
    stepFile pre n sz d
      = conflictUpd n (sizeSampleUpd (pre ++ [n]) sz
          (hiddenFileUpd (pre ++ [n]) n (fileCountUpd d))) := by
  simp only [stepFile]; rw [if_neg (by simp [h])]

@[simp] theorem scanStep_dirEvent (d : ScanData) (pre : List String) (n : String) :
    scanStep d (.dirEvent pre n) = stepDir pre n d := rfl
@[simp] theorem scanStep_fileEvent (d : ScanData) (pre : List String) (n : String) (sz : Option Nat) :
    scanStep d (.fileEvent pre n sz) = stepFile pre n sz d := rfl

@[simp] theorem fileTriples_nil : fileTriples [] = [] := rfl
@[simp] theorem fileTriples_cons_dir (pre : List String) (n : String) (evs : List Event) :
    fileTriples (.dirEvent pre n :: evs) = fileTriples evs := rfl
@[simp] theorem fileTriples_cons_file (pre : List String) (n : String) (sz : Option Nat)
    (evs : List Event) :
    fileTriples (.fileEvent pre n sz :: evs) = (pre, n, sz) :: fileTriples evs := rfl

@[simp] theorem dirPairs_nil : dirPairs [] = [] := rfl
@[simp] theorem dirPairs_cons_dir (pre : List String) (n : String) (evs : List Event) :
    dirPairs (.dirEvent pre n :: evs) = (pre, n) :: dirPairs evs := rfl
@[simp] theorem dirPairs_cons_file (pre : List String) (n : String) (sz : Option Nat)
    (evs : List Event) :
    dirPairs (.fileEvent pre n sz :: evs) = dirPairs evs := rfl

/-- Fold characterisation: `data['files']` counts exactly the walked files
that pass the exclusion test, regardless of stat success (line 325 runs
before the `try`). -/
theorem foldl_scanStep_files (evs : List Event) (d : ScanData) :
    (evs.foldl scanStep d).files
      = d.files + ((fileTriples evs).filter fun x => !inExclusionSet x.2.1).length := by
  induction evs generalizing d with
  | nil => simp
  | cons e rest ih =>
    cases e with
    | dirEvent pre n => rw [List.foldl_cons, ih]; simp
    | fileEvent pre n sz =>
      rw [List.foldl_cons, ih]
      by_cases h : inExclusionSet n
      · rw [scanStep_fileEvent, stepFile_excluded pre n sz d h]
        simp [List.filter_cons, h]
      · rw [scanStep_fileEvent, stepFile_kept pre n sz d (by simpa using h)]
        simp [List.filter_cons, h]
        omega

/-- Fold characterisation: `data['dirs']` counts exactly the directory
events (which the walk only emits for non-excluded directories). -/
theorem foldl_scanStep_dirs (evs : List Event) (d : ScanData) :
    (evs.foldl scanStep d).dirs = d.dirs + (dirPairs evs).length := by
  induction evs generalizing d with
  | nil => simp
  | cons e rest ih =>
    cases e with
    | dirEvent pre n => rw [List.foldl_cons, ih]; simp; omega
    | fileEvent pre n sz =>
      rw [List.foldl_cons, ih]
      by_cases h : inExclusionSet n
      · rw [scanStep_fileEvent, stepFile_excluded pre n sz d h]; simp
      · rw [scanStep_fileEvent, stepFile_kept pre n sz d (by simpa using h)]; simp

/-- Fold characterisation: `data['size']` accumulates exactly the
successfully-read sizes of the kept files; stat failures contribute
nothing. -/
theorem foldl_scanStep_size (evs : List Event) (d : ScanData) :
    (evs.foldl scanStep d).size
      = d.size + (statSizes ((fileTriples evs).filter fun x => !inExclusionSet x.2.1)).sum := by
  induction evs generalizing d with
  | nil => simp [statSizes]
  | cons e rest ih =>
    cases e with
    | dirEvent pre n => rw [List.foldl_cons, ih]; simp
    | fileEvent pre n sz =>
      rw [List.foldl_cons, ih]
      by_cases h : inExclusionSet n
      · rw [scanStep_fileEvent, stepFile_excluded pre n sz d h]
        simp [List.filter_cons, h]
      · rw [scanStep_fileEvent, stepFile_kept pre n sz d (by simpa using h)]
        cases sz with
        | none => simp [List.filter_cons, h, statSizes]
        | some s => simp [List.filter_cons, h, statSizes]; omega

/-- Fold characterisation: `data['errors']` records, in walk order, one
entry per kept file whose stat raised. -/
theorem foldl_scanStep_errors (evs : List Event) (d : ScanData) :
    (evs.foldl scanStep d).errors
      = d.errors ++ statErrors ((fileTriples evs).filter fun x => !inExclusionSet x.2.1) := by
  induction evs generalizing d with
  | nil => simp [statErrors]
  | cons e rest ih =>
    cases e with
    | dirEvent pre n => rw [List.foldl_cons, ih]; simp
    | fileEvent pre n sz =>
      rw [List.foldl_cons, ih]
      by_cases h : inExclusionSet n
      · rw [scanStep_fileEvent, stepFile_excluded pre n sz d h]
        simp [List.filter_cons, h]
      · rw [scanStep_fileEvent, stepFile_kept pre n sz d (by simpa using h)]
        cases sz with
        | none => simp [List.filter_cons, h, statErrors]
        | some s => simp [List.filter_cons, h, statErrors]

/-- Fold characterisation of the sample cap: starting from at most ten
samples, the fold tops the list up with one entry per qualifying file until
the cap of ten is reached (line 332). -/
theorem foldl_scanStep_samples_length (evs : List Event) (d : ScanData)
    (h : d.samples.length ≤ 10) :
    (evs.foldl scanStep d).samples.length
      = min (d.samples.length + (fileTriples evs).countP isQualFile) 10 := by
  induction evs generalizing d with
  | nil => simp; omega
  | cons e rest ih =>
    cases e with
    | dirEvent pre n => rw [List.foldl_cons, ih _ (by simpa using h)]; simp
    | fileEvent pre n sz =>
      rw [List.foldl_cons]
      by_cases hx : inExclusionSet n
      · rw [scanStep_fileEvent, stepFile_excluded pre n sz d hx, ih d h]
        cases sz <;> simp [List.countP_cons, isQualFile, hx]
      · rw [scanStep_fileEvent, stepFile_kept pre n sz d (by simpa using hx)]
        cases sz with
        | none =>
          rw [ih _ (by simpa [sizeSampleUpd_samples_none] using h)]
          simp [sizeSampleUpd_samples_none, List.countP_cons, isQualFile]
        | some s =>
          by_cases hq : 1024 < s
          · by_cases hlen : d.samples.length < 10
            · have hs := sizeSampleUpd_samples_pos (pre ++ [n]) s
                (hiddenFileUpd (pre ++ [n]) n (fileCountUpd d))
                (by simp only [hiddenFileUpd_samples, fileCountUpd_samples]; exact ⟨hlen, hq⟩)
              rw [ih _ (by simp [hs]; omega)]
              simp [hs, List.countP_cons, isQualFile, hx, hq]
              omega
            · have hs := sizeSampleUpd_samples_neg (pre ++ [n]) s
                (hiddenFileUpd (pre ++ [n]) n (fileCountUpd d))
                (by simp only [hiddenFileUpd_samples, fileCountUpd_samples]
                    exact fun hc => hlen hc.1)
              rw [ih _ (by simp [hs]; omega)]
              simp [hs, List.countP_cons, isQualFile, hx, hq]
              omega
          · have hs := sizeSampleUpd_samples_neg (pre ++ [n]) s
              (hiddenFileUpd (pre ++ [n]) n (fileCountUpd d))
              (by simp only [hiddenFileUpd_samples, fileCountUpd_samples]
                  exact fun hc => hq hc.2)
            rw [ih _ (by simp [hs]; omega)]
            simp [hs, List.countP_cons, isQualFile, hx, hq]

/-- Fold characterisation of sample membership: every sample either was
already present or records a kept file whose stat succeeded with a size
strictly above 1024 bytes. -/
theorem foldl_scanStep_samples_mem (evs : List Event) (d : ScanData)
    (x : List String × Nat) (hx : x ∈ (evs.foldl scanStep d).samples) :
    x ∈ d.samples
      ∨ ∃ pre n s, (pre, n, some s) ∈ fileTriples evs ∧ inExclusionSet n = false
          ∧ 1024 < s ∧ x = (pre ++ [n], s) := by
  induction evs generalizing d with
  | nil => exact Or.inl (by simpa using hx)
  | cons e rest ih =>
    cases e with
    | dirEvent pre n =>
      rw [List.foldl_cons] at hx
      rcases ih _ hx with hmem | ⟨p, m, s, hm, hk, hs, hxe⟩
      · exact Or.inl (by simpa using hmem)
      · exact Or.inr ⟨p, m, s, by simpa using hm, hk, hs, hxe⟩
    | fileEvent pre n sz =>
      rw [List.foldl_cons] at hx
      by_cases hexc : inExclusionSet n
      · rw [scanStep_fileEvent, stepFile_excluded pre n sz d hexc] at hx
        rcases ih _ hx with hmem | ⟨p, m, s, hm, hk, hs, hxe⟩
        · exact Or.inl hmem
        · exact Or.inr ⟨p, m, s, by simp [hm], hk, hs, hxe⟩
      · rw [scanStep_fileEvent, stepFile_kept pre n sz d (by simpa using hexc)] at hx
        rcases ih _ hx with hmem | ⟨p, m, s, hm, hk, hs, hxe⟩
        · rw [conflictUpd_samples] at hmem
          cases sz with
          | none =>
            rw [sizeSampleUpd_samples_none] at hmem
            exact Or.inl (by simpa using hmem)
          | some s =>
            by_cases hcond : (hiddenFileUpd (pre ++ [n]) n (fileCountUpd d)).samples.length < 10 ∧ 1024 < s
            · rw [sizeSampleUpd_samples_pos _ _ _ hcond] at hmem
              rcases List.mem_append.mp hmem with hold | hnew
              · exact Or.inl (by simpa using hold)
              · refine Or.inr ⟨pre, n, s, by simp, by simpa using hexc, hcond.2, ?_⟩
                simpa using hnew
            · rw [sizeSampleUpd_samples_neg _ _ _ hcond] at hmem
              exact Or.inl (by simpa using hmem)
        · exact Or.inr ⟨p, m, s, by simp [hm], hk, hs, hxe⟩

/-- Looking a key up after a `conflictAdd`: the matching key gains `n` at
the end of its list (creating the entry if absent); other keys are
untouched. -/
theorem lookupKey_conflictAdd (c : List (String × List String)) (n k : String) :
    lookupKey (conflictAdd c n) k
      = if pyLower n = k then some ((lookupKey c k).getD [] ++ [n])
        else lookupKey c k := by
  induction c with
  | nil =>
    by_cases h : pyLower n = k
    · simp [conflictAdd, lookupKey, h]
    · simp [conflictAdd, lookupKey, h]
  | cons kv rest ih =>
    by_cases h1 : kv.1 = pyLower n
    · rw [conflictAdd, if_pos h1]
      by_cases h2 : pyLower n = k
      · simp [lookupKey, h1, h2]
      · have : ¬kv.1 = k := by rw [h1]; exact h2
        simp [lookupKey, h1, h2, this]
    · rw [conflictAdd, if_neg h1]
      by_cases h3 : kv.1 = k
      · have : ¬pyLower n = k := fun he => h1 (by rw [h3, he])
        simp [lookupKey, h3, this]
      · simp [lookupKey, h3, ih]

/-- Keys after a `conflictAdd`: unchanged if the folded key is already
present, otherwise the folded key is appended. -/
theorem keys_conflictAdd (c : List (String × List String)) (n : String) :
    (conflictAdd c n).map Prod.fst
      = if pyLower n ∈ c.map Prod.fst then c.map Prod.fst
        else c.map Prod.fst ++ [pyLower n] := by
  induction c with
  | nil => simp [conflictAdd]
  | cons kv rest ih =>
    by_cases h1 : kv.1 = pyLower n
    · rw [conflictAdd, if_pos h1]
      simp [h1.symm]
    · have h1s : ¬pyLower n = kv.1 := fun he => h1 he.symm
      rw [conflictAdd, if_neg h1]
      by_cases h2 : pyLower n ∈ rest.map Prod.fst
      · simp [h2, ih, h1s]
      · simp [h2, ih, h1s]

/-- `conflictAdd` preserves distinctness of the dict keys. -/
theorem nodup_keys_conflictAdd (c : List (String × List String)) (n : String)
    (h : (c.map Prod.fst).Nodup) : ((conflictAdd c n).map Prod.fst).Nodup := by
  rw [keys_conflictAdd]
  by_cases hm : pyLower n ∈ c.map Prod.fst
  · rwa [if_pos hm]
  · rw [if_neg hm]
    exact h.append (List.nodup_singleton _) (by simpa using hm)

/-- Absent keys look up to `none`. -/
theorem lookupKey_eq_none (c : List (String × List String)) (k : String)
    (h : k ∉ c.map Prod.fst) : lookupKey c k = none := by
  induction c with
  | nil => rfl
  | cons kv rest ih =>
    have h1 : ¬kv.1 = k := fun he => h (by simp [he])
    simp [lookupKey, h1]
    exact ih fun hm => h (by simp [hm])

/-- Lookup in a filtered dict with distinct keys: the entry survives only
if the retention predicate accepts it. -/
theorem lookupKey_filter (p : String × List String → Bool)
    (c : List (String × List String)) (k : String)
    (h : (c.map Prod.fst).Nodup) :
    lookupKey (c.filter p) k
      = (lookupKey c k).bind fun v => if p (k, v) then some v else none := by
  induction c with
  | nil => rfl
  | cons kv rest ih =>
    rw [List.map_cons, List.nodup_cons] at h
    obtain ⟨hout0, htail⟩ := h
    by_cases hk : kv.1 = k
    · have hout : k ∉ rest.map Prod.fst := by rwa [hk] at hout0
      by_cases hp : p kv
      · rw [List.filter_cons_of_pos hp]
        have hkv : kv = (k, kv.2) := by
          cases kv; simp at hk; simp [hk]
        simp [lookupKey, hk]
        rw [hkv] at hp
        simp [hp]
      · rw [List.filter_cons_of_neg hp]
        have hkv : kv = (k, kv.2) := by
          cases kv; simp at hk; simp [hk]
        rw [lookupKey_eq_none (rest.filter p) k fun hm => by
          obtain ⟨kv2, hkv2, hfst⟩ := List.mem_map.mp hm
          exact hout (hfst ▸ List.mem_map_of_mem _ (List.mem_of_mem_filter hkv2))]
        simp [lookupKey, hk]
        rw [hkv] at hp
        simp [hp]
    · by_cases hp : p kv
      · rw [List.filter_cons_of_pos hp]
        simp only [lookupKey, if_neg hk]
        exact ih htail
      · rw [List.filter_cons_of_neg hp]
        simp only [lookupKey, if_neg hk]
        exact ih htail

/-- Fold characterisation of the conflicts dict: under any case-folded key,
the fold appends exactly the names of the kept files whose `lower()` equals
that key, in walk order. -/
theorem foldl_scanStep_conflicts_lookup (evs : List Event) (d : ScanData) (k : String) :
    lookupKey ((evs.foldl scanStep d).conflicts) k
      = combineOpt (lookupKey d.conflicts k) (foldNames evs k) := by
  induction evs generalizing d with
  | nil =>
    simp only [List.foldl_nil, foldNames, fileTriples_nil, List.filterMap_nil]
    cases lookupKey d.conflicts k <;> simp [combineOpt]
  | cons e rest ih =>
    cases e with
    | dirEvent pre n =>
      rw [List.foldl_cons, ih]
      simp [foldNames, scanStep_dirEvent]
    | fileEvent pre n sz =>
      rw [List.foldl_cons]
      by_cases hx : inExclusionSet n
      · rw [scanStep_fileEvent, stepFile_excluded pre n sz d hx, ih]
        simp [foldNames, List.filterMap_cons, hx]
      · rw [scanStep_fileEvent, stepFile_kept pre n sz d (by simpa using hx), ih]
        have hconf : (conflictUpd n (sizeSampleUpd (pre ++ [n]) sz
            (hiddenFileUpd (pre ++ [n]) n (fileCountUpd d)))).conflicts
            = conflictAdd d.conflicts n := by simp
        rw [hconf, lookupKey_conflictAdd]
        by_cases hkey : pyLower n = k
        · rw [if_pos hkey]
          have : foldNames (Event.fileEvent pre n sz :: rest) k = n :: foldNames rest k := by
            simp [foldNames, List.filterMap_cons, hx, hkey]
          rw [this]
          cases hl : lookupKey d.conflicts k <;> simp [combineOpt, hl]
        · rw [if_neg hkey]
          have : foldNames (Event.fileEvent pre n sz :: rest) k = foldNames rest k := by
            simp [foldNames, List.filterMap_cons, hx, hkey]
          rw [this]

/-- The conflicts dict built by the fold always has distinct keys. -/
theorem foldl_scanStep_conflicts_nodup (evs : List Event) (d : ScanData)
    (h : (d.conflicts.map Prod.fst).Nodup) :
    (((evs.foldl scanStep d).conflicts).map Prod.fst).Nodup := by
  induction evs generalizing d with
  | nil => simpa using h
  | cons e rest ih =>
    cases e with
    | dirEvent pre n =>
      rw [List.foldl_cons]
      exact ih _ (by simpa using h)
    | fileEvent pre n sz =>
      rw [List.foldl_cons]
      by_cases hx : inExclusionSet n
      · rw [scanStep_fileEvent, stepFile_excluded pre n sz d hx]
        exact ih _ h
      · rw [scanStep_fileEvent, stepFile_kept pre n sz d (by simpa using hx)]
        refine ih _ ?_
        simpa using nodup_keys_conflictAdd d.conflicts n h

/-- The conflicts mapping of the finished scan, characterised per key: the
retained entry under `k` is the full walk-order list of kept-file names
case-folding to `k`, present exactly when at least two distinct literal
names share the fold — and the grouping is tree-wide, not limited to
siblings of one directory. -/
theorem scan_conflicts_lookup (tree : EntryList) (k : String) :
    lookupKey (scan tree).conflicts k
      = if 1 < (treeFoldNames tree k).dedup.length then some (treeFoldNames tree k)
        else none := by
  have hnodup : (((scanData tree).conflicts).map Prod.fst).Nodup :=
    foldl_scanStep_conflicts_nodup _ _ (by simp [initScanData])
  have hraw : lookupKey ((scanData tree).conflicts) k
      = combineOpt none (treeFoldNames tree k) :=
    foldl_scanStep_conflicts_lookup _ _ _
  have hfilter := lookupKey_filter (fun kv => decide (1 < kv.2.dedup.length))
    ((scanData tree).conflicts) k hnodup
  show lookupKey (((scanData tree).conflicts).filter _) k = _
  rw [hfilter, hraw]
  cases hnames : treeFoldNames tree k with
  | nil => simp [combineOpt]
  | cons a l =>
    simp only [combineOpt, Option.bind_some]
    by_cases hbig : 1 < ((a :: l).dedup.length)
    · simp [hbig]
    · simp [hbig]

/-- `fileCount` of a finished scan: exactly the kept (non-excluded) walked
files, stat failures included. -/
theorem scan_files (tree : EntryList) : (scan tree).files = (keptFiles tree).length := by
  show (scanData tree).files = _
  rw [scanData, foldl_scanStep_files]
  simp [initScanData, keptFiles, filesList]

/-- `dirCount` of a finished scan: exactly the kept walked directories. -/
theorem scan_dirs (tree : EntryList) : (scan tree).dirs = (dirsList tree).length := by
  show (scanData tree).dirs = _
  rw [scanData, foldl_scanStep_dirs]
  simp [initScanData, dirsList]

/-- `totalSizeBytes` of a finished scan: the sum of the successfully-read
sizes of the kept files. -/
theorem scan_size (tree : EntryList) :
    (scan tree).size = (statSizes (keptFiles tree)).sum := by
  show (scanData tree).size = _
  rw [scanData, foldl_scanStep_size]
  simp [initScanData, keptFiles, filesList]

/-- `scanErrors` of a finished scan: one entry per kept file whose stat
raised, in walk order. -/
theorem scan_errors (tree : EntryList) :
    (scan tree).errors = statErrors (keptFiles tree) := by
  show (scanData tree).errors = _
  rw [scanData, foldl_scanStep_errors]
  simp [initScanData, keptFiles, filesList]

/-- The length of the sample list of a finished scan. -/
theorem scan_samples_length (tree : EntryList) :
    (scan tree).samples.length = min ((filesList tree).countP isQualFile) 10 := by
  show (scanData tree).samples.length = _
  rw [scanData, foldl_scanStep_samples_length _ _ (by simp [initScanData])]
  simp [initScanData, filesList]

/-- Every sample of a finished scan records a kept file whose stat
succeeded with size strictly above 1024 bytes. -/
theorem scan_samples_mem (tree : EntryList) (x : List String × Nat)
    (hx : x ∈ (scan tree).samples) :
    ∃ pre n s, (pre, n, some s) ∈ filesList tree ∧ inExclusionSet n = false
      ∧ 1024 < s ∧ x = (pre ++ [n], s) := by
  have hx0 : x ∈ (scanData tree).samples := hx
  rw [scanData] at hx0
  rcases foldl_scanStep_samples_mem _ _ _ hx0 with hmem | ⟨pre, n, s, hm, hk, hs, hxe⟩
  · simp [initScanData] at hmem
  · exact ⟨pre, n, s, hm, hk, hs, hxe⟩

/-- C1 (code bug, code evaluated at the failing input): the claim says that
a cancellation requested while the session is transferring makes the
terminal phase `Cancelled`, never `Failed` or `Completed`.  The embedded
`_run_copy` refutes this: when the cancellation flag is observed during
attempt 1's streaming loop, the code merely breaks the loop and terminates
the subprocess; if the subprocess nevertheless exits 0 the session
finalises `Completed`, and if it exits nonzero the `except` handler's
reference to the unimported `traceback` module raises `NameError`, killing
the worker with no terminal phase at all.  No execution path yields
`Cancelled` — the program has no such phase value. -/
theorem C1_cancel_terminal_eval :
    (cancelExit0 1).cancelSeen = true ∧ (cancelExit1 1).cancelSeen = true
    ∧ runCopy RETRY_ATTEMPTS cancelExit0 = .completed 1
    ∧ terminalOf (runCopy RETRY_ATTEMPTS cancelExit0) = .Completed
    ∧ runCopy RETRY_ATTEMPTS cancelExit1 = .crashed 1
    ∧ terminalOf (runCopy RETRY_ATTEMPTS cancelExit1) = .Crashed
    ∧ terminalOf (runCopy RETRY_ATTEMPTS cancelExit0) ≠ .Cancelled
    ∧ terminalOf (runCopy RETRY_ATTEMPTS cancelExit1) ≠ .Cancelled :=
  ⟨rfl, rfl, rfl, rfl, rfl, rfl,
   fun h => TerminalPhase.noConfusion h, fun h => TerminalPhase.noConfusion h⟩

/-- C2 (code bug, code evaluated at the failing input): the claim says the
retry loop performs up to `RETRY_ATTEMPTS` attempts, so that a mechanism
failing twice then succeeding completes at attempt 3 with
`RETRY_ATTEMPTS = 3` and fails after attempt 2 with `RETRY_ATTEMPTS = 2`.
The embedded `_run_copy` refutes both: the `except` handler evaluates
`traceback.format_exc()` although `traceback` is never imported, so the
very first failed attempt raises `NameError` and kills the worker before
any retry — the loop crashes after attempt 1 in both configurations. -/
theorem C2_retry_bound_eval :
    runAttempt (failTwiceThenOk 1) = .exn
    ∧ runAttempt (failTwiceThenOk 2) = .exn
    ∧ runAttempt (failTwiceThenOk 3) = .ok
    ∧ runCopy 3 failTwiceThenOk = .crashed 1
    ∧ runCopy 2 failTwiceThenOk = .crashed 1 :=
  ⟨rfl, rfl, rfl, rfl, rfl⟩

/-- C3 (code bug, code evaluated at the failing input): the claim says every
name matching the ExclusionPolicy — including trailing-wildcard globs such
as `.nfs*` — is never counted, never hidden-flagged, never sampled.  The
scan refutes this: it tests exact membership in `EXCLUSION_SET`, so
`.nfs001` and `.nfsdir` (which match `.nfs*` only as a glob) are counted in
`fileCount`/`dirCount`, listed among the hidden entries, and `.nfs001` is
even taken as a verification sample. -/
theorem C3_exclusion_glob_eval :
    specMatchesPolicy ".nfs001" = true ∧ specMatchesPolicy ".nfsdir" = true
    ∧ inExclusionSet ".nfs001" = false ∧ inExclusionSet ".nfsdir" = false
    ∧ (scan treeNfs).files = 1
    ∧ (scan treeNfs).dirs = 1
    ∧ (scan treeNfs).hidden_files = [[".nfs001"]]
    ∧ (scan treeNfs).hidden_dirs = [[".nfsdir"]]
    ∧ (scan treeNfs).samples = [([".nfs001"], 2000)] :=
  ⟨rfl, rfl, rfl, rfl, rfl, rfl, rfl, rfl, rfl⟩

/-- C4 counterexample: at a total size of 105,000,000 bytes — which exceeds
100 MB on either reading (10^6 or 2^20 bytes per MB) — the confirmation
gate does not prompt at all and proceeds even though the dialog, had it
been shown, would have answered no.  The actual guard is
`size/(1024**3) > 0.1`, i.e. 0.1 GiB ≈ 107.37 MB, not 100 MB. -/
theorem C4_counterexample :
    100 * 1000000 < 105000000 ∧ 100 * 1048576 < 105000000
    ∧ (confirmCopy 105000000 (some false)).prompted = false
    ∧ (confirmCopy 105000000 (some false)).proceed = true :=
  ⟨by norm_num, by norm_num, rfl, rfl⟩

/-- C4 as amended: the gate prompts exactly when
`totalSizeBytes/(1024^3) > 0.1`, i.e. `10 * totalSizeBytes > 2^30`
(107,374,182.4 bytes ≈ 102.4 MiB), and when the dialog raises it fail-opens
after a 5-second logged countdown; below the threshold it proceeds without
prompting. -/
theorem C4_confirm_threshold (sizeBytes : Nat) (dialog : Option Bool) :
    ((confirmCopy sizeBytes dialog).prompted = true ↔ 2 ^ 30 < 10 * sizeBytes)
    ∧ (2 ^ 30 < 10 * sizeBytes →
        confirmCopy sizeBytes none = { proceed := true, prompted := true, countdown := 5 })
    ∧ (∀ b, 2 ^ 30 < 10 * sizeBytes →
        confirmCopy sizeBytes (some b) = { proceed := b, prompted := true, countdown := 0 })
    ∧ (¬2 ^ 30 < 10 * sizeBytes →
        confirmCopy sizeBytes dialog = { proceed := true, prompted := false, countdown := 0 }) := by
  have hnum : (2 ^ 30 : Nat) = 1073741824 := by norm_num
  unfold confirmCopy
  rw [hnum]
  by_cases h : (1073741824 : Nat) < 10 * sizeBytes
  · cases dialog <;> simp [h]
  · cases dialog <;> simp [h]

/-- Witness for `C4_confirm_threshold` at concrete sizes: 2^30 bytes (1 GiB)
is over threshold — prompting, and fail-opening with the 5-second countdown
when the dialog raises — while 1000 bytes is under it. -/
theorem C4_confirm_threshold_witness :
    confirmCopy (2 ^ 30) none = { proceed := true, prompted := true, countdown := 5 }
    ∧ confirmCopy (2 ^ 30) (some false)
        = { proceed := false, prompted := true, countdown := 0 }
    ∧ confirmCopy 1000 none = { proceed := true, prompted := false, countdown := 0 } :=
  ⟨(C4_confirm_threshold (2 ^ 30) none).2.1 (by norm_num),
   (C4_confirm_threshold (2 ^ 30) (some false)).2.2.1 false (by norm_num),
   (C4_confirm_threshold 1000 none).2.2.2 (by norm_num)⟩

/-- C5: a kept file whose stat raises is still counted in `fileCount`
(the count equals the number of kept files, stat failures included), adds
exactly one entry to `scanErrors`, and contributes nothing to
`totalSizeBytes` (which sums only the successfully-read sizes). -/
theorem C5_stat_failure_tolerated (tree : EntryList) :
    (scan tree).files = (keptFiles tree).length
    ∧ (scan tree).errors = statErrors (keptFiles tree)
    ∧ (scan tree).size = (statSizes (keptFiles tree)).sum :=
  ⟨scan_files tree, scan_errors tree, scan_size tree⟩

/-- C6: `verificationSamples` never exceeds ten entries; each entry is a
(relative path, size) pair of a non-excluded file whose stat succeeded with
size strictly above 1024 bytes; and as soon as at least ten walked files
qualify (e.g. the spec's scenario of 1,000 files all above 1024 bytes) the
list has exactly ten entries. -/
theorem C6_sample_cap (tree : EntryList) :
    (scan tree).samples.length ≤ 10
    ∧ (∀ p s, (p, s) ∈ (scan tree).samples →
        ∃ pre n, p = pre ++ [n] ∧ inExclusionSet n = false ∧ 1024 < s
          ∧ (pre, n, some s) ∈ filesList tree)
    ∧ (10 ≤ (filesList tree).countP isQualFile → (scan tree).samples.length = 10) := by
  refine ⟨?_, ?_, ?_⟩
  · rw [scan_samples_length]; omega
  · intro p s hps
    obtain ⟨pre, n, s2, hm, hk, hs, hxe⟩ := scan_samples_mem tree (p, s) hps
    obtain ⟨hp, hs2⟩ := Prod.mk.injEq .. ▸ hxe
    exact ⟨pre, n, hp, hk, hs2 ▸ hs, hs2 ▸ hm⟩
  · intro h
    rw [scan_samples_length]
    omega

/-- Witness for `C6_sample_cap` on a tree of twelve qualifying files: the
scan returns exactly ten samples, and the first sample is traceable to a
walked file with a successfully-read size. -/
theorem C6_sample_cap_witness :
    10 ≤ (filesList treeTwelve).countP isQualFile
    ∧ (scan treeTwelve).samples.length = 10
    ∧ (∃ pre n, (["f0"] : List String) = pre ++ [n] ∧ inExclusionSet n = false
        ∧ 1024 < 2000 ∧ (pre, n, some 2000) ∈ filesList treeTwelve) := by
  have hc : (filesList treeTwelve).countP isQualFile = 12 := rfl
  have h10 : 10 ≤ (filesList treeTwelve).countP isQualFile := by omega
  have hmem : ((["f0"] : List String), 2000) ∈ (scan treeTwelve).samples := by
    rw [show (scan treeTwelve).samples
      = [(["f0"], 2000), (["f1"], 2000), (["f2"], 2000), (["f3"], 2000), (["f4"], 2000),
         (["f5"], 2000), (["f6"], 2000), (["f7"], 2000), (["f8"], 2000), (["f9"], 2000)] from rfl]
    exact .head _
  exact ⟨h10, (C6_sample_cap treeTwelve).2.2 h10,
    (C6_sample_cap treeTwelve).2.1 ["f0"] 2000 hmem⟩

/-- C7 counterexample: `Report.txt` sits at the root and `report.txt`
inside the subdirectory `sub` — the walk shows they live in different
directories, so they are not siblings — yet the finished scan retains the
group `report.txt ↦ [Report.txt, report.txt]`.  Under the claim (grouping
restricted to siblings, lone names produce no entry) this tree would have
produced no group at all. -/
theorem C7_counterexample :
    filesList treeCross = [([], "Report.txt", some 5), (["sub"], "report.txt", some 5)]
    ∧ (scan treeCross).conflicts = [("report.txt", ["Report.txt", "report.txt"])] :=
  ⟨rfl, rfl⟩

/-- C7 as amended: `caseCollisionGroups` maps a case-folded filename to the
walk-ordered list of the literal names of all non-excluded files anywhere
in the tree (not only siblings) sharing that fold, and an entry is retained
exactly when at least two distinct literal names share the fold — so
sibling `Report.txt`/`report.txt` still yield the key `report.txt` with two
names, and a tree-wide unique `Report.txt` still yields no entry. -/
theorem C7_case_collision_groups (tree : EntryList) (k : String) :
    lookupKey (scan tree).conflicts k
      = if 1 < (treeFoldNames tree k).dedup.length then some (treeFoldNames tree k)
        else none :=
  scan_conflicts_lookup tree k

/-- C8: the scan is deterministic over the tree's contents — two trees
whose walks enumerate the same multiset of files (with the same stat
results) and the same multiset of kept directories, in any order, yield
identical `fileCount`, `dirCount` and `totalSizeBytes`, and the same
`caseCollisionGroups` entry (as a multiset of literal names) under every
case-folded key.  In particular scanning the same unmodified tree twice
yields identical values of all four. -/
theorem C8_scan_deterministic (t1 t2 : EntryList)
    (hf : Multiset.ofList (filesList t1) = Multiset.ofList (filesList t2))
    (hd : Multiset.ofList (dirsList t1) = Multiset.ofList (dirsList t2)) :
    (scan t1).files = (scan t2).files
    ∧ (scan t1).dirs = (scan t2).dirs
    ∧ (scan t1).size = (scan t2).size
    ∧ ∀ k, (lookupKey (scan t1).conflicts k).map Multiset.ofList
        = (lookupKey (scan t2).conflicts k).map Multiset.ofList := by
  have hfp : List.Perm (filesList t1) (filesList t2) := Multiset.coe_eq_coe.mp hf
  have hdp : List.Perm (dirsList t1) (dirsList t2) := Multiset.coe_eq_coe.mp hd
  refine ⟨?_, ?_, ?_, ?_⟩
  · rw [scan_files, scan_files]
    exact (hfp.filter _).length_eq
  · rw [scan_dirs, scan_dirs]
    exact hdp.length_eq
  · rw [scan_size, scan_size]
    exact ((hfp.filter _).filterMap _).sum_eq
  · intro k
    rw [scan_conflicts_lookup, scan_conflicts_lookup]
    have hperm : List.Perm (treeFoldNames t1 k) (treeFoldNames t2 k) := hfp.filterMap _
    have hdl : (treeFoldNames t1 k).dedup.length = (treeFoldNames t2 k).dedup.length :=
      hperm.dedup.length_eq
    rw [hdl]
    by_cases hbig : 1 < (treeFoldNames t2 k).dedup.length
    · simp only [if_pos hbig, Option.map_some]
      exact congrArg some (Multiset.coe_eq_coe.mpr hperm)
    · simp [if_neg hbig]

/-- Witness for `C8_scan_deterministic`: the same three-entry tree
enumerated in opposite orders produces equal counts, equal total size and
the same collision group under the key `a.txt`. -/
theorem C8_scan_deterministic_witness :
    (scan treePermA).files = (scan treePermB).files
    ∧ (scan treePermA).dirs = (scan treePermB).dirs
    ∧ (scan treePermA).size = (scan treePermB).size
    ∧ (lookupKey (scan treePermA).conflicts "a.txt").map Multiset.ofList
        = (lookupKey (scan treePermB).conflicts "a.txt").map Multiset.ofList := by
  have hf : Multiset.ofList (filesList treePermA) = Multiset.ofList (filesList treePermB) := by
    rw [show filesList treePermA
        = [([], "b.txt", some 1), ([], "A.txt", some 2), (["d"], "x", none)] from rfl,
      show filesList treePermB
        = [([], "A.txt", some 2), ([], "b.txt", some 1), (["d"], "x", none)] from rfl]
    exact Multiset.coe_eq_coe.mpr
      (List.Perm.swap ([], "A.txt", some 2) ([], "b.txt", some 1) [(["d"], "x", none)])
  have hd : Multiset.ofList (dirsList treePermA) = Multiset.ofList (dirsList treePermB) := rfl
  obtain ⟨h1, h2, h3, h4⟩ := C8_scan_deterministic treePermA treePermB hf hd
  exact ⟨h1, h2, h3, h4 "a.txt"⟩

/-- C9: every verification sample is drawn from a file whose stat
succeeded, and the recorded size is exactly the size observed during the
walk; a file whose stat raised can never appear among the samples. -/
theorem C9_samples_have_observed_size (tree : EntryList) (p : List String) (s : Nat)
    (h : (p, s) ∈ (scan tree).samples) :
    ∃ pre n, p = pre ++ [n] ∧ (pre, n, some s) ∈ filesList tree := by
  obtain ⟨pre, n, s2, hm, hk, hs, hxe⟩ := scan_samples_mem tree (p, s) h
  obtain ⟨hp, hs2⟩ := Prod.mk.injEq .. ▸ hxe
  exact ⟨pre, n, hp, hs2 ▸ hm⟩

/-- Witness for `C9_samples_have_observed_size`: the single sample of
`treeSample` traces back to the walked file `data.bin` with its observed
size 4096. -/
theorem C9_samples_have_observed_size_witness :
    ∃ pre n, (["data.bin"] : List String) = pre ++ [n]
      ∧ (pre, n, some 4096) ∈ filesList treeSample := by
  refine C9_samples_have_observed_size treeSample ["data.bin"] 4096 ?_
  rw [show (scan treeSample).samples = [(["data.bin"], 4096)] from rfl]
  exact .head _

/-- C10: `ThreadSafeState.reset` keeps the key set (in order) and rewrites
every value by its runtime type — booleans to `False`, integers to `0`,
everything else to the empty list.  On the freshly-initialised state this
sends `current_phase`, initialised to the string `'idle'`, to the empty
list rather than to `'idle'` or any other phase name. -/
theorem C10_reset_eval :
    (∀ st : List (String × PyVal),
      (ThreadSafeState.reset st).map Prod.fst = st.map Prod.fst)
    ∧ ThreadSafeState.reset ThreadSafeState.initState
      = [("copy_in_progress", .bool false), ("copy_completed", .bool false),
         ("copy_failed", .bool false), ("cancel_requested", .bool false),
         ("current_phase", .list []), ("files_processed", .int 0),
         ("bytes_transferred", .int 0), ("errors", .list []),
         ("warnings", .list []), ("checkpoints", .list [])]
 := by
  refine ⟨?_, rfl⟩
  intro st
  induction st with
  | nil => rfl
  | cons kv rest ih => simp [ThreadSafeState.reset] at ih ⊢
